import Mathlib

/-!
Verification of the CasperLiquid liquid-staking ledger (src/src/lib.rs).

The contract state (`Mapping<Address, U256>` balances, `Mapping<(Address, Address), U256>`
allowances, `Var<U256>` total_staked and contract_cspr_balance, plus metadata) is embedded
as a record over an abstract address type.  `U256` quantities are embedded as `Nat`
together with the explicit bound `U256max = 2^256 - 1`; `checked_add`/`checked_sub` become
`safe_add`/`safe_sub` returning `Except Error Nat`.  Each public mutating entry point is
embedded as a function from the pre-state to a pair `(Except Error Unit, State)` where the
returned state reflects every storage write performed before the point of return — so an
error raised after a write would be visibly non-atomic in the model, exactly as in storage.
-/

set_option linter.unusedSectionVars false

namespace CasperLiquid

/-- Maximum value representable in a `U256`. -/
def U256max : Nat := 2 ^ 256 - 1

/-- `u128::MAX`, the ceiling used by `validate_amount`. -/
def u128MAX : Nat := 2 ^ 128 - 1

/-- The contract's error enum (src/src/lib.rs, `pub enum Error`). -/
inductive Error where
  | InsufficientBalance
  | InsufficientAllowance
  | InvalidAmount
  | SelfTransfer
  | ArithmeticOverflow
  | ArithmeticUnderflow
  | InvalidAddress
  | ExceedsMaximum
  deriving DecidableEq, Repr

/-- The contract storage (`pub struct CasperLiquid`): balances, allowances, the two
aggregate scalars and the metadata triple.  Mappings with `unwrap_or_default` reads are
embedded as total functions (absent key = 0). -/
structure State (Addr : Type) where
  balances : Addr → Nat
  allowances : Addr × Addr → Nat
  total_staked : Nat
  contract_cspr_balance : Nat
  name : String
  symbol : String
  decimals : Nat

variable {Addr : Type} [DecidableEq Addr]

/-- `init`: all balances and allowances zero (fresh mappings), aggregates zero,
fixed metadata. -/
def initState : State Addr where
  balances := fun _ => 0
  allowances := fun _ => 0
  total_staked := 0
  contract_cspr_balance := 0
  name := "Staked CSPR"
  symbol := "stCSPR"
  decimals := 9

/-- `fn validate_amount`: zero is `InvalidAmount`; above `u128::MAX` is `ExceedsMaximum`. -/
def validate_amount (amount : Nat) : Except Error Unit :=
  if amount = 0 then .error .InvalidAmount
  else if u128MAX < amount then .error .ExceedsMaximum
  else .ok ()

/-- `fn validate_address`: structural no-op, always `Ok(())`. -/
def validate_address (_addr : Addr) : Except Error Unit := .ok ()

/-- `fn safe_add`: `checked_add`, `ArithmeticOverflow` when the sum leaves `U256`. -/
def safe_add (a b : Nat) : Except Error Nat :=
  if a + b ≤ U256max then .ok (a + b) else .error .ArithmeticOverflow

/-- `fn safe_sub`: `checked_sub`, `ArithmeticUnderflow` when `b > a`. -/
def safe_sub (a b : Nat) : Except Error Nat :=
  if b ≤ a then .ok (a - b) else .error .ArithmeticUnderflow

/-- `fn validate_sufficient_balance`. -/
def validate_sufficient_balance (balance required : Nat) : Except Error Unit :=
  if balance < required then .error .InsufficientBalance else .ok ()

/-- `fn validate_sufficient_allowance`. -/
def validate_sufficient_allowance (allow required : Nat) : Except Error Unit :=
  if allow < required then .error .InsufficientAllowance else .ok ()

/-- `pub fn total_supply`. -/
def total_supply (s : State Addr) : Nat := s.total_staked

/-- `pub fn balance_of`. -/
def balance_of (s : State Addr) (owner : Addr) : Nat := s.balances owner

/-- `pub fn allowance`. -/
def allowance (s : State Addr) (owner spender : Addr) : Nat := s.allowances (owner, spender)

/-- `pub fn contract_cspr_balance` (the read accessor for the custody pool). -/
def custody_balance (s : State Addr) : Nat := s.contract_cspr_balance

/-- `fn validate_state_consistency`: `ArithmeticOverflow` is *reused* as a general state
error when `total_supply != contract_cspr_balance`. -/
def validate_state_consistency (s : State Addr) : Except Error Unit :=
  if total_supply s ≠ custody_balance s then .error .ArithmeticOverflow
  else .ok ()

/-- `pub fn validate_supply_consistency` (the boolean view). -/
def validate_supply_consistency (s : State Addr) : Bool :=
  total_supply s == custody_balance s

/-- State after overwriting the balances mapping (all other storage unchanged). -/
def setBalances (s : State Addr) (b : Addr → Nat) : State Addr where
  balances := b
  allowances := s.allowances
  total_staked := s.total_staked
  contract_cspr_balance := s.contract_cspr_balance
  name := s.name
  symbol := s.symbol
  decimals := s.decimals

/-- State after overwriting the allowances mapping (all other storage unchanged). -/
def setAllowances (s : State Addr) (al : Addr × Addr → Nat) : State Addr where
  balances := s.balances
  allowances := al
  total_staked := s.total_staked
  contract_cspr_balance := s.contract_cspr_balance
  name := s.name
  symbol := s.symbol
  decimals := s.decimals

/-- The three storage writes shared by `stake` and `unstake`: the caller's balance,
`total_staked` and `contract_cspr_balance`. -/
def stakeWrites (s : State Addr) (caller : Addr) (nb nt nc : Nat) : State Addr where
  balances := Function.update s.balances caller nb
  allowances := s.allowances
  total_staked := nt
  contract_cspr_balance := nc
  name := s.name
  symbol := s.symbol
  decimals := s.decimals

/-- `fn _transfer`: validate amount and addresses, reject self-transfer, check the
source balance, pre-compute both new balances, then write `from` then `to`. -/
def _transfer (s : State Addr) (fro recipient : Addr) (amount : Nat) :
    Except Error Unit × State Addr :=
  match validate_amount amount with
  | .error e => (.error e, s)
  | .ok _ =>
  match validate_address fro with
  | .error e => (.error e, s)
  | .ok _ =>
  match validate_address recipient with
  | .error e => (.error e, s)
  | .ok _ =>
  if fro = recipient then (.error .SelfTransfer, s)
  else
  match validate_sufficient_balance (s.balances fro) amount with
  | .error e => (.error e, s)
  | .ok _ =>
  match safe_sub (s.balances fro) amount with
  | .error e => (.error e, s)
  | .ok new_from_balance =>
  match safe_add (s.balances recipient) amount with
  | .error e => (.error e, s)
  | .ok new_to_balance =>
    (.ok (), setBalances s
      (Function.update (Function.update s.balances fro new_from_balance)
        recipient new_to_balance))

/-- `pub fn transfer`: validate, then `_transfer` from the caller. -/
def transfer (s : State Addr) (caller recipient : Addr) (amount : Nat) :
    Except Error Unit × State Addr :=
  match validate_amount amount with
  | .error e => (.error e, s)
  | .ok _ =>
  match validate_address recipient with
  | .error e => (.error e, s)
  | .ok _ => _transfer s caller recipient amount

/-- `pub fn approve`: reject self-approval, otherwise unconditionally overwrite the
allowance entry for `(caller, spender)`. -/
def approve (s : State Addr) (caller spender : Addr) (amount : Nat) :
    Except Error Unit × State Addr :=
  match validate_address spender with
  | .error e => (.error e, s)
  | .ok _ =>
  if caller = spender then (.error .SelfTransfer, s)
  else
    (.ok (), setAllowances s (Function.update s.allowances (caller, spender) amount))

/-- `pub fn transfer_from`: validate, check the `(owner, caller)` allowance, run
`_transfer owner → recipient`, then decrement and write the allowance. -/
def transfer_from (s : State Addr) (caller owner recipient : Addr) (amount : Nat) :
    Except Error Unit × State Addr :=
  match validate_amount amount with
  | .error e => (.error e, s)
  | .ok _ =>
  match validate_address owner with
  | .error e => (.error e, s)
  | .ok _ =>
  match validate_address recipient with
  | .error e => (.error e, s)
  | .ok _ =>
  match validate_sufficient_allowance (s.allowances (owner, caller)) amount with
  | .error e => (.error e, s)
  | .ok _ =>
  match _transfer s owner recipient amount with
  | (.error e, s1) => (.error e, s1)
  | (.ok _, s1) =>
  match safe_sub (s.allowances (owner, caller)) amount with
  | .error e => (.error e, s1)
  | .ok new_allowance =>
    (.ok (), setAllowances s1 (Function.update s1.allowances (owner, caller) new_allowance))

/-- `pub fn stake`: validate amount, consistency pre-check, pre-compute the three new
quantities, write all three, consistency post-check (performed *after* the writes). -/
def stake (s : State Addr) (caller : Addr) (amount : Nat) :
    Except Error Unit × State Addr :=
  match validate_amount amount with
  | .error e => (.error e, s)
  | .ok _ =>
  match validate_state_consistency s with
  | .error e => (.error e, s)
  | .ok _ =>
  match safe_add (s.balances caller) amount with
  | .error e => (.error e, s)
  | .ok new_balance =>
  match safe_add s.total_staked amount with
  | .error e => (.error e, s)
  | .ok new_total_supply =>
  match safe_add s.contract_cspr_balance amount with
  | .error e => (.error e, s)
  | .ok new_contract_balance =>
  match validate_state_consistency
      (stakeWrites s caller new_balance new_total_supply new_contract_balance) with
  | .error e => (.error e, stakeWrites s caller new_balance new_total_supply new_contract_balance)
  | .ok _ => (.ok (), stakeWrites s caller new_balance new_total_supply new_contract_balance)

/-- `pub fn unstake`: validate amount, consistency pre-check, balance check, pre-compute
the three new quantities, write all three, consistency post-check (after the writes). -/
def unstake (s : State Addr) (caller : Addr) (amount : Nat) :
    Except Error Unit × State Addr :=
  match validate_amount amount with
  | .error e => (.error e, s)
  | .ok _ =>
  match validate_state_consistency s with
  | .error e => (.error e, s)
  | .ok _ =>
  match validate_sufficient_balance (s.balances caller) amount with
  | .error e => (.error e, s)
  | .ok _ =>
  match safe_sub (s.balances caller) amount with
  | .error e => (.error e, s)
  | .ok new_balance =>
  match safe_sub s.total_staked amount with
  | .error e => (.error e, s)
  | .ok new_total_supply =>
  match safe_sub s.contract_cspr_balance amount with
  | .error e => (.error e, s)
  | .ok new_contract_balance =>
  match validate_state_consistency
      (stakeWrites s caller new_balance new_total_supply new_contract_balance) with
  | .error e => (.error e, stakeWrites s caller new_balance new_total_supply new_contract_balance)
  | .ok _ => (.ok (), stakeWrites s caller new_balance new_total_supply new_contract_balance)

/-- One call to a public mutating entry point, with the ambient caller made explicit. -/
inductive Call (Addr : Type) where
  | transfer (caller recipient : Addr) (amount : Nat)
  | approve (caller spender : Addr) (amount : Nat)
  | transferFrom (caller owner recipient : Addr) (amount : Nat)
  | stake (caller : Addr) (amount : Nat)
  | unstake (caller : Addr) (amount : Nat)
  deriving DecidableEq, Repr

/-- The `U256` amount argument of a call. -/
def Call.amount : Call Addr → Nat
  | .transfer _ _ a => a
  | .approve _ _ a => a
  | .transferFrom _ _ _ a => a
  | .stake _ a => a
  | .unstake _ a => a

/-- A call is well formed when its amount argument fits in `U256` (the argument's type
in the contract's signature). -/
def Call.wf (c : Call Addr) : Prop := c.amount ≤ U256max

instance (c : Call Addr) : Decidable c.wf := by
  unfold Call.wf; infer_instance

/-- Dispatch a call: the resulting state records every write performed, whether or not
the call returned an error. -/
def exec (s : State Addr) : Call Addr → Except Error Unit × State Addr
  | .transfer caller recipient amount => transfer s caller recipient amount
  | .approve caller spender amount => approve s caller spender amount
  | .transferFrom caller owner recipient amount =>
      transfer_from s caller owner recipient amount
  | .stake caller amount => stake s caller amount
  | .unstake caller amount => unstake s caller amount

/-- Run a finite sequence of calls from a state, keeping the post-state of each call
(successful or not). -/
def execSeq (s : State Addr) : List (Call Addr) → State Addr
  | [] => s
  | c :: cs => execSeq (exec s c).2 cs

/-! ### Characterizations of the validators and the arithmetic guard -/

@[simp] theorem validate_amount_ok_iff {amount : Nat} {u : Unit} :
    validate_amount amount = .ok u ↔ amount ≠ 0 ∧ amount ≤ u128MAX := by
  unfold validate_amount; split_ifs <;> simp_all

@[simp] theorem validate_amount_error_iff {amount : Nat} {e : Error} :
    validate_amount amount = .error e ↔
      (amount = 0 ∧ e = .InvalidAmount) ∨
      (amount ≠ 0 ∧ u128MAX < amount ∧ e = .ExceedsMaximum) := by
  unfold validate_amount; split_ifs <;> simp_all [eq_comm]

@[simp] theorem validate_address_eq (a : Addr) : validate_address a = .ok () := rfl

@[simp] theorem safe_add_ok_iff {a b c : Nat} :
    safe_add a b = .ok c ↔ a + b ≤ U256max ∧ c = a + b := by
  unfold safe_add; split_ifs <;> simp_all [eq_comm]

@[simp] theorem safe_add_error_iff {a b : Nat} {e : Error} :
    safe_add a b = .error e ↔ U256max < a + b ∧ e = .ArithmeticOverflow := by
  unfold safe_add; split_ifs <;> simp_all [eq_comm]

@[simp] theorem safe_sub_ok_iff {a b c : Nat} :
    safe_sub a b = .ok c ↔ b ≤ a ∧ c = a - b := by
  unfold safe_sub; split_ifs <;> simp_all [eq_comm]

@[simp] theorem safe_sub_error_iff {a b : Nat} {e : Error} :
    safe_sub a b = .error e ↔ a < b ∧ e = .ArithmeticUnderflow := by
  unfold safe_sub; split_ifs <;> simp_all [eq_comm]

@[simp] theorem validate_sufficient_balance_ok_iff {bal req : Nat} {u : Unit} :
    validate_sufficient_balance bal req = .ok u ↔ req ≤ bal := by
  unfold validate_sufficient_balance; split_ifs <;> simp <;> omega

@[simp] theorem validate_sufficient_balance_error_iff {bal req : Nat} {e : Error} :
    validate_sufficient_balance bal req = .error e ↔
      bal < req ∧ e = .InsufficientBalance := by
  unfold validate_sufficient_balance; split_ifs <;> simp_all [eq_comm]

@[simp] theorem validate_sufficient_allowance_ok_iff {al req : Nat} {u : Unit} :
    validate_sufficient_allowance al req = .ok u ↔ req ≤ al := by
  unfold validate_sufficient_allowance; split_ifs <;> simp <;> omega

@[simp] theorem validate_sufficient_allowance_error_iff {al req : Nat} {e : Error} :
    validate_sufficient_allowance al req = .error e ↔
      al < req ∧ e = .InsufficientAllowance := by
  unfold validate_sufficient_allowance; split_ifs <;> simp_all [eq_comm]

@[simp] theorem validate_state_consistency_ok_iff {s : State Addr} {u : Unit} :
    validate_state_consistency s = .ok u ↔ total_supply s = custody_balance s := by
  unfold validate_state_consistency; split_ifs <;> simp_all

@[simp] theorem validate_state_consistency_error_iff {s : State Addr} {e : Error} :
    validate_state_consistency s = .error e ↔
      total_supply s ≠ custody_balance s ∧ e = .ArithmeticOverflow := by
  unfold validate_state_consistency; split_ifs <;> simp_all [eq_comm]

/-- Forward form: a valid amount passes `validate_amount`. -/
theorem validate_amount_eq_ok {amount : Nat} (h1 : amount ≠ 0) (h2 : amount ≤ u128MAX) :
    validate_amount amount = .ok () := validate_amount_ok_iff.mpr ⟨h1, h2⟩

/-- Forward form: a sufficient balance passes `validate_sufficient_balance`. -/
theorem validate_sufficient_balance_eq_ok {bal req : Nat} (h : req ≤ bal) :
    validate_sufficient_balance bal req = .ok () :=
  validate_sufficient_balance_ok_iff.mpr h

/-- Forward form: a consistent state passes `validate_state_consistency`. -/
theorem validate_state_consistency_eq_ok {s : State Addr}
    (h : total_supply s = custody_balance s) :
    validate_state_consistency s = .ok () := validate_state_consistency_ok_iff.mpr h

/-! ### Projections of the write helpers -/

@[simp] theorem setBalances_balances (s : State Addr) (b : Addr → Nat) :
    (setBalances s b).balances = b := rfl

@[simp] theorem setBalances_allowances (s : State Addr) (b : Addr → Nat) :
    (setBalances s b).allowances = s.allowances := rfl

@[simp] theorem setBalances_total_staked (s : State Addr) (b : Addr → Nat) :
    (setBalances s b).total_staked = s.total_staked := rfl

@[simp] theorem setBalances_contract_cspr_balance (s : State Addr) (b : Addr → Nat) :
    (setBalances s b).contract_cspr_balance = s.contract_cspr_balance := rfl

@[simp] theorem setAllowances_balances (s : State Addr) (al : Addr × Addr → Nat) :
    (setAllowances s al).balances = s.balances := rfl

@[simp] theorem setAllowances_allowances (s : State Addr) (al : Addr × Addr → Nat) :
    (setAllowances s al).allowances = al := rfl

@[simp] theorem setAllowances_total_staked (s : State Addr) (al : Addr × Addr → Nat) :
    (setAllowances s al).total_staked = s.total_staked := rfl

@[simp] theorem setAllowances_contract_cspr_balance (s : State Addr) (al : Addr × Addr → Nat) :
    (setAllowances s al).contract_cspr_balance = s.contract_cspr_balance := rfl

@[simp] theorem stakeWrites_balances (s : State Addr) (caller : Addr) (nb nt nc : Nat) :
    (stakeWrites s caller nb nt nc).balances = Function.update s.balances caller nb := rfl

@[simp] theorem stakeWrites_allowances (s : State Addr) (caller : Addr) (nb nt nc : Nat) :
    (stakeWrites s caller nb nt nc).allowances = s.allowances := rfl

@[simp] theorem stakeWrites_total_staked (s : State Addr) (caller : Addr) (nb nt nc : Nat) :
    (stakeWrites s caller nb nt nc).total_staked = nt := rfl

@[simp] theorem stakeWrites_contract_cspr_balance (s : State Addr) (caller : Addr)
    (nb nt nc : Nat) : (stakeWrites s caller nb nt nc).contract_cspr_balance = nc := rfl

/-! ### Per-operation outcome characterizations -/

/-- `stake` either succeeds with an exactly described post-state, or returns an error
having performed no write. -/
theorem stake_spec (s : State Addr) (caller : Addr) (amount : Nat) :
    ((stake s caller amount).1 = .ok () ∧
      amount ≠ 0 ∧ amount ≤ u128MAX ∧
      total_supply s = custody_balance s ∧
      s.balances caller + amount ≤ U256max ∧
      s.total_staked + amount ≤ U256max ∧
      (stake s caller amount).2 =
        stakeWrites s caller (s.balances caller + amount) (s.total_staked + amount)
          (s.contract_cspr_balance + amount)) ∨
    ((∃ e, (stake s caller amount).1 = .error e) ∧ (stake s caller amount).2 = s) := by
  unfold stake
  split
  · next e heq => exact Or.inr ⟨⟨e, rfl⟩, rfl⟩
  · split
    · next e heq => exact Or.inr ⟨⟨e, rfl⟩, rfl⟩
    · split
      · next e heq => exact Or.inr ⟨⟨e, rfl⟩, rfl⟩
      · split
        · next e heq => exact Or.inr ⟨⟨e, rfl⟩, rfl⟩
        · split
          · next e heq => exact Or.inr ⟨⟨e, rfl⟩, rfl⟩
          · split
            · next e heq =>
                exfalso
                simp_all [total_supply, custody_balance]
            · next u heq =>
                left
                simp_all [total_supply, custody_balance]

/-- `unstake` either succeeds with an exactly described post-state, or returns an error
having performed no write. -/
theorem unstake_spec (s : State Addr) (caller : Addr) (amount : Nat) :
    ((unstake s caller amount).1 = .ok () ∧
      amount ≠ 0 ∧ amount ≤ u128MAX ∧
      total_supply s = custody_balance s ∧
      amount ≤ s.balances caller ∧
      amount ≤ s.total_staked ∧
      (unstake s caller amount).2 =
        stakeWrites s caller (s.balances caller - amount) (s.total_staked - amount)
          (s.contract_cspr_balance - amount)) ∨
    ((∃ e, (unstake s caller amount).1 = .error e) ∧ (unstake s caller amount).2 = s) := by
  unfold unstake
  split
  · next e heq => exact Or.inr ⟨⟨e, rfl⟩, rfl⟩
  · split
    · next e heq => exact Or.inr ⟨⟨e, rfl⟩, rfl⟩
    · split
      · next e heq => exact Or.inr ⟨⟨e, rfl⟩, rfl⟩
      · split
        · next e heq => exact Or.inr ⟨⟨e, rfl⟩, rfl⟩
        · split
          · next e heq => exact Or.inr ⟨⟨e, rfl⟩, rfl⟩
          · split
            · next e heq => exact Or.inr ⟨⟨e, rfl⟩, rfl⟩
            · split
              · next e heq =>
                  exfalso
                  simp_all [total_supply, custody_balance]
              · next u heq =>
                  left
                  simp_all [total_supply, custody_balance]

/-- `_transfer` either succeeds with an exactly described post-state, or returns an
error having performed no write. -/
theorem _transfer_spec (s : State Addr) (fro recipient : Addr) (amount : Nat) :
    ((_transfer s fro recipient amount).1 = .ok () ∧
      amount ≠ 0 ∧ amount ≤ u128MAX ∧ fro ≠ recipient ∧
      amount ≤ s.balances fro ∧ s.balances recipient + amount ≤ U256max ∧
      (_transfer s fro recipient amount).2 =
        setBalances s (Function.update (Function.update s.balances fro
          (s.balances fro - amount)) recipient (s.balances recipient + amount))) ∨
    ((∃ e, (_transfer s fro recipient amount).1 = .error e) ∧
      (_transfer s fro recipient amount).2 = s) := by
  unfold _transfer validate_address
  dsimp only
  split
  · next e heq => exact Or.inr ⟨⟨e, rfl⟩, rfl⟩
  · next u heq =>
    split
    · next h => exact Or.inr ⟨⟨.SelfTransfer, rfl⟩, rfl⟩
    · next h =>
      split
      · next e heq2 => exact Or.inr ⟨⟨e, rfl⟩, rfl⟩
      · next u2 heq2 =>
        split
        · next e heq3 => exact Or.inr ⟨⟨e, rfl⟩, rfl⟩
        · next nfb heq3 =>
          split
          · next e heq4 => exact Or.inr ⟨⟨e, rfl⟩, rfl⟩
          · next ntb heq4 =>
            left
            rw [validate_amount_ok_iff] at heq
            rw [validate_sufficient_balance_ok_iff] at heq2
            rw [safe_sub_ok_iff] at heq3
            rw [safe_add_ok_iff] at heq4
            obtain ⟨hsub, hfb⟩ := heq3
            obtain ⟨hadd, htb⟩ := heq4
            subst hfb htb
            exact ⟨rfl, heq.1, heq.2, h, heq2, hadd, rfl⟩

/-- `transfer` coincides with `_transfer` applied to the caller (the extra validations
performed by `transfer` are all re-performed by `_transfer`). -/
theorem transfer_eq (s : State Addr) (caller recipient : Addr) (amount : Nat) :
    transfer s caller recipient amount = _transfer s caller recipient amount := by
  unfold transfer validate_address
  dsimp only
  split
  · next e heq => unfold _transfer; rw [heq]
  · rfl

/-- `approve` fails with `SelfTransfer` exactly on self-approval, and otherwise
overwrites the `(caller, spender)` allowance entry and nothing else. -/
theorem approve_spec (s : State Addr) (caller spender : Addr) (amount : Nat) :
    (caller = spender ∧ approve s caller spender amount = (.error .SelfTransfer, s)) ∨
    (caller ≠ spender ∧ approve s caller spender amount =
      (.ok (), setAllowances s (Function.update s.allowances (caller, spender) amount))) := by
  unfold approve validate_address
  dsimp only
  split
  · next h => exact Or.inl ⟨h, rfl⟩
  · next h => exact Or.inr ⟨h, rfl⟩

/-- `transfer_from` either succeeds with an exactly described post-state, or returns an
error having performed no write. -/
theorem transfer_from_spec (s : State Addr) (caller owner recipient : Addr) (amount : Nat) :
    ((transfer_from s caller owner recipient amount).1 = .ok () ∧
      amount ≠ 0 ∧ amount ≤ u128MAX ∧
      amount ≤ s.allowances (owner, caller) ∧
      owner ≠ recipient ∧ amount ≤ s.balances owner ∧
      s.balances recipient + amount ≤ U256max ∧
      (transfer_from s caller owner recipient amount).2 =
        setAllowances
          (setBalances s (Function.update (Function.update s.balances owner
            (s.balances owner - amount)) recipient (s.balances recipient + amount)))
          (Function.update s.allowances (owner, caller)
            (s.allowances (owner, caller) - amount))) ∨
    ((∃ e, (transfer_from s caller owner recipient amount).1 = .error e) ∧
      (transfer_from s caller owner recipient amount).2 = s) := by
  unfold transfer_from validate_address
  dsimp only
  split
  · next e heq => exact Or.inr ⟨⟨e, rfl⟩, rfl⟩
  · next u heq =>
    split
    · next e heq2 => exact Or.inr ⟨⟨e, rfl⟩, rfl⟩
    · next u2 heq2 =>
      split
      · next e s1 heq3 =>
        rcases _transfer_spec s owner recipient amount with ⟨h1, _⟩ | ⟨⟨e', h1⟩, h2⟩
        · rw [heq3] at h1; simp at h1
        · rw [heq3] at h2; dsimp at h2; subst h2
          exact Or.inr ⟨⟨e, rfl⟩, rfl⟩
      · next u3 s1 heq3 =>
        rcases _transfer_spec s owner recipient amount with
          ⟨h1, hne, hle, hfr, hbal, hov, h2⟩ | ⟨⟨e', h1⟩, h2⟩
        · rw [heq3] at h2; dsimp at h2; subst h2
          split
          · next e heq4 =>
            rw [safe_sub_error_iff] at heq4
            rw [validate_sufficient_allowance_ok_iff] at heq2
            exact absurd heq2 (by omega)
          · next nal heq4 =>
            rw [safe_sub_ok_iff] at heq4
            obtain ⟨hge, hnal⟩ := heq4
            subst hnal
            left
            rw [validate_amount_ok_iff] at heq
            refine ⟨rfl, heq.1, heq.2, hge, hfr, hbal, hov, ?_⟩
            simp [setAllowances]
        · rw [heq3] at h1; simp at h1

/-! ### Dispatch and sequences -/

@[simp] theorem exec_transfer (s : State Addr) (caller recipient : Addr) (amount : Nat) :
    exec s (.transfer caller recipient amount) = transfer s caller recipient amount := rfl

@[simp] theorem exec_approve (s : State Addr) (caller spender : Addr) (amount : Nat) :
    exec s (.approve caller spender amount) = approve s caller spender amount := rfl

@[simp] theorem exec_transferFrom (s : State Addr) (caller owner recipient : Addr)
    (amount : Nat) : exec s (.transferFrom caller owner recipient amount) =
      transfer_from s caller owner recipient amount := rfl

@[simp] theorem exec_stake (s : State Addr) (caller : Addr) (amount : Nat) :
    exec s (.stake caller amount) = stake s caller amount := rfl

@[simp] theorem exec_unstake (s : State Addr) (caller : Addr) (amount : Nat) :
    exec s (.unstake caller amount) = unstake s caller amount := rfl

@[simp] theorem execSeq_nil (s : State Addr) : execSeq s [] = s := rfl

@[simp] theorem execSeq_cons (s : State Addr) (c : Call Addr) (cs : List (Call Addr)) :
    execSeq s (c :: cs) = execSeq (exec s c).2 cs := rfl

/-- One step preserves the 1:1 backing equation. -/
theorem exec_preserves_backing (s : State Addr) (c : Call Addr)
    (h : total_supply s = custody_balance s) :
    total_supply (exec s c).2 = custody_balance (exec s c).2 := by
  cases c with
  | transfer caller recipient amount =>
    rw [exec_transfer, transfer_eq]
    rcases _transfer_spec s caller recipient amount with ⟨_, _, _, _, _, _, h2⟩ | ⟨_, h2⟩ <;>
      rw [h2] <;> simpa [total_supply, custody_balance] using h
  | approve caller spender amount =>
    rw [exec_approve]
    rcases approve_spec s caller spender amount with ⟨_, h2⟩ | ⟨_, h2⟩ <;>
      rw [h2] <;> simpa [total_supply, custody_balance] using h
  | transferFrom caller owner recipient amount =>
    rw [exec_transferFrom]
    rcases transfer_from_spec s caller owner recipient amount with
      ⟨_, _, _, _, _, _, _, h2⟩ | ⟨_, h2⟩ <;>
      rw [h2] <;> simpa [total_supply, custody_balance] using h
  | stake caller amount =>
    rw [exec_stake]
    rcases stake_spec s caller amount with ⟨_, _, _, _, _, _, h2⟩ | ⟨_, h2⟩ <;> rw [h2]
    · simp only [total_supply, custody_balance, stakeWrites_total_staked,
        stakeWrites_contract_cspr_balance]
      simp only [total_supply, custody_balance] at h
      omega
    · exact h
  | unstake caller amount =>
    rw [exec_unstake]
    rcases unstake_spec s caller amount with ⟨_, _, _, _, _, _, h2⟩ | ⟨_, h2⟩ <;> rw [h2]
    · simp only [total_supply, custody_balance, stakeWrites_total_staked,
        stakeWrites_contract_cspr_balance]
      simp only [total_supply, custody_balance] at h
      omega
    · exact h

/-- C1 — 1:1 backing invariant: starting from the initialized state, after every finite
sequence of calls to transfer, approve, transferFrom, stake and unstake — each call
either succeeding or returning an error — `total_supply()` equals
`contract_cspr_balance()`. -/
theorem C1_backing_invariant (cs : List (Call Addr)) :
    total_supply (execSeq (initState : State Addr) cs) =
      custody_balance (execSeq (initState : State Addr) cs) := by
  suffices h : ∀ s : State Addr, total_supply s = custody_balance s →
      total_supply (execSeq s cs) = custody_balance (execSeq s cs) by
    exact h _ rfl
  induction cs with
  | nil => intro s h; exact h
  | cons c cs ih =>
    intro s h
    rw [execSeq_cons]
    exact ih _ (exec_preserves_backing s c h)

/-- Any call returning an error leaves the state untouched (shared helper). -/
theorem exec_error_unchanged (s : State Addr) (c : Call Addr) (e : Error)
    (h : (exec s c).1 = .error e) : (exec s c).2 = s := by
  cases c with
  | transfer caller recipient amount =>
    rw [exec_transfer, transfer_eq] at h ⊢
    rcases _transfer_spec s caller recipient amount with ⟨h1, _⟩ | ⟨_, h2⟩
    · rw [h1] at h; cases h
    · exact h2
  | approve caller spender amount =>
    rw [exec_approve] at h ⊢
    rcases approve_spec s caller spender amount with ⟨_, h2⟩ | ⟨_, h2⟩
    · rw [h2]
    · rw [h2] at h; cases h
  | transferFrom caller owner recipient amount =>
    rw [exec_transferFrom] at h ⊢
    rcases transfer_from_spec s caller owner recipient amount with ⟨h1, _⟩ | ⟨_, h2⟩
    · rw [h1] at h; cases h
    · exact h2
  | stake caller amount =>
    rw [exec_stake] at h ⊢
    rcases stake_spec s caller amount with ⟨h1, _⟩ | ⟨_, h2⟩
    · rw [h1] at h; cases h
    · exact h2
  | unstake caller amount =>
    rw [exec_unstake] at h ⊢
    rcases unstake_spec s caller amount with ⟨h1, _⟩ | ⟨_, h2⟩
    · rw [h1] at h; cases h
    · exact h2

/-- C2 — failed-call atomicity: every call (in particular transfer, transferFrom, stake
and unstake) that returns an error leaves the entire ledger state — balances,
allowances, total issued, custody pool and metadata — identical to the pre-call
state. -/
theorem C2_failed_call_atomicity (s : State Addr) (c : Call Addr) (e : Error)
    (h : (exec s c).1 = .error e) : (exec s c).2 = s :=
  exec_error_unchanged s c e h

/-- Witness for C2: `transfer` of amount 0 from the initialized two-address state fails
with `InvalidAmount` and leaves the state unchanged. -/
theorem C2_failed_call_atomicity_witness :
    (exec (initState : State (Fin 2)) (.transfer 0 1 0)).1 = .error .InvalidAmount ∧
    (exec (initState : State (Fin 2)) (.transfer 0 1 0)).2 = initState := by
  refine ⟨by rfl, C2_failed_call_atomicity _ _ .InvalidAmount (by rfl)⟩

/-! ### Conservation: total supply equals the sum of all balances -/

/-- Sum of all account balances (the address space is taken finite so the sum exists;
only finitely many accounts ever hold a nonzero balance). -/
def sumBalances [Fintype Addr] (s : State Addr) : Nat := ∑ a, balance_of s a

/-- Effect of a single `Function.update` on a total sum. -/
theorem sum_update_add [Fintype Addr] (f : Addr → Nat) (c : Addr) (v : Nat) :
    (∑ a, Function.update f c v a) + f c = v + ∑ a, f a := by
  rw [Finset.sum_update_of_mem (Finset.mem_univ c), ← Finset.erase_eq]
  have h := Finset.sum_erase_add Finset.univ f (Finset.mem_univ c)
  omega

/-- A successful `transfer` changes neither the balance sum nor the total supply. -/
theorem sumBalances_transfer_ok [Fintype Addr] (s : State Addr) (caller recipient : Addr)
    (amount : Nat) (h : (transfer s caller recipient amount).1 = .ok ()) :
    sumBalances (transfer s caller recipient amount).2 = sumBalances s ∧
    total_supply (transfer s caller recipient amount).2 = total_supply s := by
  rw [transfer_eq] at h ⊢
  rcases _transfer_spec s caller recipient amount with
    ⟨h1, hne, hle, hfr, hbal, hov, h2⟩ | ⟨⟨e, h1⟩, h2⟩
  · rw [h2]
    constructor
    · unfold sumBalances balance_of
      simp only [setBalances_balances]
      have e1 := sum_update_add
        (Function.update s.balances caller (s.balances caller - amount)) recipient
        (s.balances recipient + amount)
      have e2 := sum_update_add s.balances caller (s.balances caller - amount)
      have e3 : Function.update s.balances caller (s.balances caller - amount) recipient =
          s.balances recipient := Function.update_noteq (Ne.symm hfr) _ _
      rw [e3] at e1
      omega
    · simp [total_supply]
  · rw [h1] at h; cases h

/-- A successful `transfer_from` changes neither the balance sum nor the total supply. -/
theorem sumBalances_transfer_from_ok [Fintype Addr] (s : State Addr)
    (caller owner recipient : Addr) (amount : Nat)
    (h : (transfer_from s caller owner recipient amount).1 = .ok ()) :
    sumBalances (transfer_from s caller owner recipient amount).2 = sumBalances s ∧
    total_supply (transfer_from s caller owner recipient amount).2 = total_supply s := by
  rcases transfer_from_spec s caller owner recipient amount with
    ⟨h1, hne, hle, hal, hfr, hbal, hov, h2⟩ | ⟨⟨e, h1⟩, h2⟩
  · rw [h2]
    constructor
    · unfold sumBalances balance_of
      simp only [setAllowances_balances, setBalances_balances]
      have e1 := sum_update_add
        (Function.update s.balances owner (s.balances owner - amount)) recipient
        (s.balances recipient + amount)
      have e2 := sum_update_add s.balances owner (s.balances owner - amount)
      have e3 : Function.update s.balances owner (s.balances owner - amount) recipient =
          s.balances recipient := Function.update_noteq (Ne.symm hfr) _ _
      rw [e3] at e1
      omega
    · simp [total_supply]
  · rw [h1] at h; cases h

/-- A successful `stake` raises both the balance sum and the total supply by the staked
amount. -/
theorem sumBalances_stake_ok [Fintype Addr] (s : State Addr) (caller : Addr)
    (amount : Nat) (h : (stake s caller amount).1 = .ok ()) :
    sumBalances (stake s caller amount).2 = sumBalances s + amount ∧
    total_supply (stake s caller amount).2 = total_supply s + amount := by
  rcases stake_spec s caller amount with ⟨h1, hne, hle, hcons, hb, ht, h2⟩ | ⟨⟨e, h1⟩, h2⟩
  · rw [h2]
    constructor
    · unfold sumBalances balance_of
      simp only [stakeWrites_balances]
      have e2 := sum_update_add s.balances caller (s.balances caller + amount)
      omega
    · simp [total_supply]
  · rw [h1] at h; cases h

/-- A successful `unstake` lowers both the balance sum and the total supply by the
unstaked amount. -/
theorem sumBalances_unstake_ok [Fintype Addr] (s : State Addr) (caller : Addr)
    (amount : Nat) (h : (unstake s caller amount).1 = .ok ()) :
    sumBalances (unstake s caller amount).2 + amount = sumBalances s ∧
    total_supply (unstake s caller amount).2 + amount = total_supply s := by
  rcases unstake_spec s caller amount with ⟨h1, hne, hle, hcons, hb, ht, h2⟩ | ⟨⟨e, h1⟩, h2⟩
  · rw [h2]
    constructor
    · unfold sumBalances balance_of
      simp only [stakeWrites_balances]
      have e2 := sum_update_add s.balances caller (s.balances caller - amount)
      omega
    · simp only [total_supply, stakeWrites_total_staked]
      omega
  · rw [h1] at h; cases h

/-- A successful `approve` changes neither the balance sum nor the total supply. -/
theorem sumBalances_approve_ok [Fintype Addr] (s : State Addr) (caller spender : Addr)
    (amount : Nat) :
    sumBalances (approve s caller spender amount).2 = sumBalances s ∧
    total_supply (approve s caller spender amount).2 = total_supply s := by
  rcases approve_spec s caller spender amount with ⟨_, h2⟩ | ⟨_, h2⟩ <;> rw [h2]
  · exact ⟨rfl, rfl⟩
  · exact ⟨rfl, rfl⟩

/-- One step preserves the conservation equation. -/
theorem exec_preserves_conservation [Fintype Addr] (s : State Addr) (c : Call Addr)
    (h : total_supply s = sumBalances s) :
    total_supply (exec s c).2 = sumBalances (exec s c).2 := by
  cases hres : (exec s c).1 with
  | error e => rw [exec_error_unchanged s c e hres]; exact h
  | ok u =>
    cases u
    cases c with
    | transfer caller recipient amount =>
      have := sumBalances_transfer_ok s caller recipient amount (by rw [← exec_transfer]; exact hres)
      rw [exec_transfer]
      omega
    | approve caller spender amount =>
      have := sumBalances_approve_ok s caller spender amount
      rw [exec_approve]
      omega
    | transferFrom caller owner recipient amount =>
      have := sumBalances_transfer_from_ok s caller owner recipient amount
        (by rw [← exec_transferFrom]; exact hres)
      rw [exec_transferFrom]
      omega
    | stake caller amount =>
      have := sumBalances_stake_ok s caller amount (by rw [← exec_stake]; exact hres)
      rw [exec_stake]
      omega
    | unstake caller amount =>
      have := sumBalances_unstake_ok s caller amount (by rw [← exec_unstake]; exact hres)
      rw [exec_unstake]
      omega

/-- C3 — conservation: in every state reachable from the initialized state via the five
mutating operations, `total_supply()` equals the sum of `balance_of` over all accounts;
every successful transfer and transferFrom leaves both that sum and `total_supply()`
unchanged; and stake/unstake change the sum and `total_supply()` by the same amount
(the staked/unstaked amount). -/
theorem C3_conservation [Fintype Addr] (cs : List (Call Addr)) :
    (total_supply (execSeq (initState : State Addr) cs) =
      sumBalances (execSeq (initState : State Addr) cs)) ∧
    (∀ (s : State Addr) (caller recipient : Addr) (amount : Nat),
      (transfer s caller recipient amount).1 = .ok () →
        sumBalances (transfer s caller recipient amount).2 = sumBalances s ∧
        total_supply (transfer s caller recipient amount).2 = total_supply s) ∧
    (∀ (s : State Addr) (caller owner recipient : Addr) (amount : Nat),
      (transfer_from s caller owner recipient amount).1 = .ok () →
        sumBalances (transfer_from s caller owner recipient amount).2 = sumBalances s ∧
        total_supply (transfer_from s caller owner recipient amount).2 = total_supply s) ∧
    (∀ (s : State Addr) (caller : Addr) (amount : Nat),
      (stake s caller amount).1 = .ok () →
        sumBalances (stake s caller amount).2 = sumBalances s + amount ∧
        total_supply (stake s caller amount).2 = total_supply s + amount) ∧
    (∀ (s : State Addr) (caller : Addr) (amount : Nat),
      (unstake s caller amount).1 = .ok () →
        sumBalances (unstake s caller amount).2 + amount = sumBalances s ∧
        total_supply (unstake s caller amount).2 + amount = total_supply s) := by
  refine ⟨?_, sumBalances_transfer_ok, sumBalances_transfer_from_ok,
    sumBalances_stake_ok, sumBalances_unstake_ok⟩
  suffices h : ∀ s : State Addr, total_supply s = sumBalances s →
      total_supply (execSeq s cs) = sumBalances (execSeq s cs) by
    refine h _ ?_
    unfold total_supply sumBalances balance_of initState
    simp
  induction cs with
  | nil => intro s h; exact h
  | cons c cs ih =>
    intro s h
    rw [execSeq_cons]
    exact ih _ (exec_preserves_conservation s c h)

/-- Witness for C3: staking 5 from the initialized two-address state succeeds and
raises the balance sum and the total supply by 5. -/
theorem C3_conservation_witness :
    ((stake (initState : State (Fin 2)) 0 5).1 = .ok ()) ∧
    (sumBalances (stake (initState : State (Fin 2)) 0 5).2 =
      sumBalances (initState : State (Fin 2)) + 5 ∧
    total_supply (stake (initState : State (Fin 2)) 0 5).2 =
      total_supply (initState : State (Fin 2)) + 5) := by
  have h := (C3_conservation ([] : List (Call (Fin 2)))).2.2.2.1 initState 0 5 (by rfl)
  exact ⟨by rfl, h⟩

/-! ### The consistency pre-check failure mode -/

/-- On an inconsistent state, `stake` with a valid amount stops at the consistency
pre-check and returns `ArithmeticOverflow`, the kind the code reuses as its general
state error, leaving the state unchanged. -/
theorem stake_inconsistent (s : State Addr) (caller : Addr) (amount : Nat)
    (hne : total_supply s ≠ custody_balance s) (h0 : amount ≠ 0)
    (hle : amount ≤ u128MAX) :
    stake s caller amount = (.error .ArithmeticOverflow, s) := by
  unfold stake
  rw [validate_amount_eq_ok h0 hle,
    validate_state_consistency_error_iff.mpr ⟨hne, rfl⟩]

/-- On an inconsistent state, `unstake` with a valid amount stops at the consistency
pre-check and returns `ArithmeticOverflow`, leaving the state unchanged. -/
theorem unstake_inconsistent (s : State Addr) (caller : Addr) (amount : Nat)
    (hne : total_supply s ≠ custody_balance s) (h0 : amount ≠ 0)
    (hle : amount ≤ u128MAX) :
    unstake s caller amount = (.error .ArithmeticOverflow, s) := by
  unfold unstake
  rw [validate_amount_eq_ok h0 hle,
    validate_state_consistency_error_iff.mpr ⟨hne, rfl⟩]

/-- A concrete inconsistent state: one issued unit against an empty custody pool. -/
def inconsistentState : State (Fin 2) :=
  { initState with total_staked := 1 }

/-- C4 counterexample: on an inconsistent state, `stake 1` and `unstake 1` do fail at
the consistency pre-check — but with `Error::ArithmeticOverflow`, which is one of the
ordinary caller-error kinds of the taxonomy, not a kind distinct from all of them. -/
theorem C4_distinct_error_counterexample :
    total_supply inconsistentState ≠ custody_balance inconsistentState ∧
    (stake inconsistentState 0 1).1 = .error .ArithmeticOverflow ∧
    (unstake inconsistentState 0 1).1 = .error .ArithmeticOverflow ∧
    Error.ArithmeticOverflow ∈ [Error.InvalidAmount, Error.ExceedsMaximum,
      Error.InsufficientBalance, Error.InsufficientAllowance, Error.SelfTransfer,
      Error.ArithmeticOverflow, Error.ArithmeticUnderflow, Error.InvalidAddress] := by
  refine ⟨by decide, by rfl, by rfl, by decide⟩

/-- C4 (amended) — for every state in which `total_supply()` differs from
`contract_cspr_balance()` and every non-zero amount within the ceiling, `stake` and
`unstake` fail at the consistency pre-check, leaving the state unchanged; the error
kind is `Error::ArithmeticOverflow`, reused by `validate_state_consistency` as a
general state error rather than a kind distinct from the ordinary taxonomy. -/
theorem C4_consistency_precheck_error (s : State Addr) (caller : Addr) (amount : Nat)
    (hne : total_supply s ≠ custody_balance s) (h0 : amount ≠ 0)
    (hle : amount ≤ u128MAX) :
    stake s caller amount = (.error .ArithmeticOverflow, s) ∧
    unstake s caller amount = (.error .ArithmeticOverflow, s) :=
  ⟨stake_inconsistent s caller amount hne h0 hle,
    unstake_inconsistent s caller amount hne h0 hle⟩

/-- Witness for the amended C4, at the concrete inconsistent state and amount 1. -/
theorem C4_consistency_precheck_error_witness :
    (total_supply inconsistentState ≠ custody_balance inconsistentState ∧
      (1 : Nat) ≠ 0 ∧ (1 : Nat) ≤ u128MAX) ∧
    stake inconsistentState 0 1 = (.error .ArithmeticOverflow, inconsistentState) ∧
    unstake inconsistentState 0 1 = (.error .ArithmeticOverflow, inconsistentState) := by
  refine ⟨⟨by decide, by decide, by decide⟩,
    C4_consistency_precheck_error inconsistentState 0 1 (by decide) (by decide) (by decide)⟩

/-! ### Bounds on stored quantities -/

/-- C5 counterexample: a single well-formed `approve` call from the initialized state
(the amount `2^128` fits in `U256`, and `approve` performs no amount validation)
stores an allowance strictly above the `u128::MAX` ceiling used by `validate_amount`,
so stored quantities are not bounded by that ceiling. -/
theorem C5_bounded_quantities_counterexample :
    (Call.approve (0 : Fin 2) 1 (2 ^ 128)).wf ∧
    (approve (initState : State (Fin 2)) 0 1 (2 ^ 128)).1 = .ok () ∧
    u128MAX <
      allowance (execSeq (initState : State (Fin 2)) [Call.approve 0 1 (2 ^ 128)]) 0 1 := by
  refine ⟨by decide, by rfl, by decide⟩

/-- All stored quantities of a state are within `U256`. -/
def BoundedState (s : State Addr) : Prop :=
  (∀ a, s.balances a ≤ U256max) ∧ (∀ k, s.allowances k ≤ U256max) ∧
    s.total_staked ≤ U256max ∧ s.contract_cspr_balance ≤ U256max

/-- One well-formed call preserves `BoundedState`. -/
theorem exec_preserves_bounds (s : State Addr) (c : Call Addr) (hwf : c.wf)
    (h : BoundedState s) : BoundedState (exec s c).2 := by
  obtain ⟨hb, hal, ht, hc⟩ := h
  cases c with
  | transfer caller recipient amount =>
    rw [exec_transfer, transfer_eq]
    rcases _transfer_spec s caller recipient amount with
      ⟨h1, hne, hle, hfr, hbal, hov, h2⟩ | ⟨_, h2⟩ <;> rw [h2]
    · refine ⟨?_, hal, ht, hc⟩
      intro a
      simp only [setBalances_balances]
      by_cases har : a = recipient
      · subst har; rw [Function.update_same]; exact hov
      · rw [Function.update_noteq har]
        by_cases haf : a = caller
        · subst haf; rw [Function.update_same]; exact le_trans (Nat.sub_le _ _) (hb a)
        · rw [Function.update_noteq haf]; exact hb a
    · exact ⟨hb, hal, ht, hc⟩
  | approve caller spender amount =>
    rw [exec_approve]
    rcases approve_spec s caller spender amount with ⟨_, h2⟩ | ⟨hne, h2⟩ <;> rw [h2]
    · exact ⟨hb, hal, ht, hc⟩
    · refine ⟨hb, ?_, ht, hc⟩
      intro k
      simp only [setAllowances_allowances]
      by_cases hk : k = (caller, spender)
      · subst hk; rw [Function.update_same]; exact hwf
      · rw [Function.update_noteq hk]; exact hal k
  | transferFrom caller owner recipient amount =>
    rw [exec_transferFrom]
    rcases transfer_from_spec s caller owner recipient amount with
      ⟨h1, hne, hle, halw, hfr, hbal, hov, h2⟩ | ⟨_, h2⟩ <;> rw [h2]
    · refine ⟨?_, ?_, ht, hc⟩
      · intro a
        simp only [setAllowances_balances, setBalances_balances]
        by_cases har : a = recipient
        · subst har; rw [Function.update_same]; exact hov
        · rw [Function.update_noteq har]
          by_cases haf : a = owner
          · subst haf; rw [Function.update_same]; exact le_trans (Nat.sub_le _ _) (hb a)
          · rw [Function.update_noteq haf]; exact hb a
      · intro k
        simp only [setAllowances_allowances]
        by_cases hk : k = (owner, caller)
        · subst hk; rw [Function.update_same]
          exact le_trans (Nat.sub_le _ _) (hal _)
        · rw [Function.update_noteq hk]; exact hal k
    · exact ⟨hb, hal, ht, hc⟩
  | stake caller amount =>
    rw [exec_stake]
    rcases stake_spec s caller amount with
      ⟨h1, hne, hle, hcons, hbb, htt, h2⟩ | ⟨_, h2⟩ <;> rw [h2]
    · have hcons' : s.total_staked = s.contract_cspr_balance := hcons
      refine ⟨?_, hal, ?_, ?_⟩
      · intro a
        simp only [stakeWrites_balances]
        by_cases ha : a = caller
        · subst ha; rw [Function.update_same]; exact hbb
        · rw [Function.update_noteq ha]; exact hb a
      · simpa using htt
      · simp only [stakeWrites_contract_cspr_balance]; omega
    · exact ⟨hb, hal, ht, hc⟩
  | unstake caller amount =>
    rw [exec_unstake]
    rcases unstake_spec s caller amount with
      ⟨h1, hne, hle, hcons, hbb, htt, h2⟩ | ⟨_, h2⟩ <;> rw [h2]
    · refine ⟨?_, hal, ?_, ?_⟩
      · intro a
        simp only [stakeWrites_balances]
        by_cases ha : a = caller
        · subst ha; rw [Function.update_same]; exact le_trans (Nat.sub_le _ _) (hb a)
        · rw [Function.update_noteq ha]; exact hb a
      · simp only [stakeWrites_total_staked]; omega
      · simp only [stakeWrites_contract_cspr_balance]; omega
    · exact ⟨hb, hal, ht, hc⟩

/-- C5 (amended) — in every state reachable from the initialized state via well-formed
calls (amount arguments representable in `U256`), every balance, allowance entry,
total issued and custody pool stays within `U256max` — no slot ever wraps around.
The `u128::MAX` ceiling of `validate_amount` bounds single operation amounts only:
stored quantities may legitimately exceed it, by accumulation or because `approve`
applies no ceiling at all. -/
theorem C5_no_stored_overflow (cs : List (Call Addr)) (hwf : ∀ c ∈ cs, Call.wf c) :
    (∀ a, balance_of (execSeq (initState : State Addr) cs) a ≤ U256max) ∧
    (∀ owner spender,
      allowance (execSeq (initState : State Addr) cs) owner spender ≤ U256max) ∧
    total_supply (execSeq (initState : State Addr) cs) ≤ U256max ∧
    custody_balance (execSeq (initState : State Addr) cs) ≤ U256max := by
  suffices h : BoundedState (execSeq (initState : State Addr) cs) by
    obtain ⟨hb, hal, ht, hc⟩ := h
    exact ⟨hb, fun owner spender => hal (owner, spender), ht, hc⟩
  suffices h : ∀ s : State Addr, BoundedState s → BoundedState (execSeq s cs) by
    refine h _ ⟨fun a => ?_, fun k => ?_, ?_, ?_⟩ <;> simp [initState, U256max]
  induction cs with
  | nil => intro s h; exact h
  | cons c cs ih =>
    intro s h
    rw [execSeq_cons]
    exact ih (fun c hc => hwf c (List.mem_cons_of_mem _ hc)) _
      (exec_preserves_bounds s c (hwf c (List.mem_cons_self _ _)) h)

/-- Witness for the amended C5: a two-call well-formed sequence from the initialized
state keeps every stored quantity within `U256max`. -/
theorem C5_no_stored_overflow_witness :
    (∀ c ∈ [Call.approve (0 : Fin 2) 1 (2 ^ 128), Call.stake (0 : Fin 2) 5], Call.wf c) ∧
    ((∀ a, balance_of (execSeq (initState : State (Fin 2))
        [Call.approve 0 1 (2 ^ 128), Call.stake 0 5]) a ≤ U256max) ∧
      (∀ owner spender, allowance (execSeq (initState : State (Fin 2))
        [Call.approve 0 1 (2 ^ 128), Call.stake 0 5]) owner spender ≤ U256max) ∧
      total_supply (execSeq (initState : State (Fin 2))
        [Call.approve 0 1 (2 ^ 128), Call.stake 0 5]) ≤ U256max ∧
      custody_balance (execSeq (initState : State (Fin 2))
        [Call.approve 0 1 (2 ^ 128), Call.stake 0 5]) ≤ U256max) := by
  refine ⟨by decide, C5_no_stored_overflow _ (by decide)⟩

/-! ### Round trip -/

/-- Forward success lemma for `unstake`: with a valid amount, a consistent state and a
sufficient balance, `unstake` performs exactly the three decrements. -/
theorem unstake_ok (s : State Addr) (caller : Addr) (amount : Nat)
    (h0 : amount ≠ 0) (hle : amount ≤ u128MAX)
    (hcons : total_supply s = custody_balance s)
    (hbal : amount ≤ s.balances caller) (htot : amount ≤ s.total_staked) :
    unstake s caller amount =
      (.ok (), stakeWrites s caller (s.balances caller - amount) (s.total_staked - amount)
        (s.contract_cspr_balance - amount)) := by
  have hcons' : s.total_staked = s.contract_cspr_balance := hcons
  unfold unstake
  rw [validate_amount_eq_ok h0 hle,
    validate_state_consistency_eq_ok hcons,
    validate_sufficient_balance_eq_ok hbal,
    safe_sub_ok_iff.mpr ⟨hbal, rfl⟩,
    safe_sub_ok_iff.mpr ⟨htot, rfl⟩,
    safe_sub_ok_iff.mpr ⟨by omega, rfl⟩]
  dsimp only
  rw [validate_state_consistency_eq_ok (by
    simp only [total_supply, custody_balance, stakeWrites_total_staked,
      stakeWrites_contract_cspr_balance]
    omega)]

/-- C6 — round trip: whenever `stake(amount)` by a caller succeeds, an immediately
following `unstake(amount)` by the same caller also succeeds, and afterwards the
caller's balance, `total_supply()` and `contract_cspr_balance()` all equal their
values from before the stake. -/
theorem C6_round_trip (s : State Addr) (caller : Addr) (amount : Nat)
    (h : (stake s caller amount).1 = .ok ()) :
    (unstake (stake s caller amount).2 caller amount).1 = .ok () ∧
    balance_of (unstake (stake s caller amount).2 caller amount).2 caller =
      balance_of s caller ∧
    total_supply (unstake (stake s caller amount).2 caller amount).2 = total_supply s ∧
    custody_balance (unstake (stake s caller amount).2 caller amount).2 =
      custody_balance s := by
  rcases stake_spec s caller amount with ⟨h1, hne, hle, hcons, hb, ht, h2⟩ | ⟨⟨e, h1⟩, h2⟩
  · have hcons' : s.total_staked = s.contract_cspr_balance := hcons
    rw [h2]
    have hbal1 : amount ≤ (stakeWrites s caller (s.balances caller + amount)
        (s.total_staked + amount) (s.contract_cspr_balance + amount)).balances caller := by
      simp only [stakeWrites_balances, Function.update_same]
      omega
    have hcons1 : total_supply (stakeWrites s caller (s.balances caller + amount)
        (s.total_staked + amount) (s.contract_cspr_balance + amount)) =
        custody_balance (stakeWrites s caller (s.balances caller + amount)
        (s.total_staked + amount) (s.contract_cspr_balance + amount)) := by
      simp only [total_supply, custody_balance, stakeWrites_total_staked,
        stakeWrites_contract_cspr_balance]
      omega
    have htot1 : amount ≤ (stakeWrites s caller (s.balances caller + amount)
        (s.total_staked + amount) (s.contract_cspr_balance + amount)).total_staked := by
      simp only [stakeWrites_total_staked]
      omega
    rw [unstake_ok _ caller amount hne hle hcons1 hbal1 htot1]
    refine ⟨rfl, ?_, ?_, ?_⟩
    · simp only [balance_of, stakeWrites_balances, Function.update_same]
      omega
    · simp only [total_supply, stakeWrites_total_staked]
      omega
    · simp only [custody_balance, stakeWrites_contract_cspr_balance]
      omega
  · rw [h1] at h; cases h

/-- Witness for C6: staking 5 from the initialized one-address state, then unstaking 5,
returns balance, total supply and custody pool to their initial values. -/
theorem C6_round_trip_witness :
    ((stake (initState : State (Fin 1)) 0 5).1 = .ok ()) ∧
    ((unstake (stake (initState : State (Fin 1)) 0 5).2 0 5).1 = .ok () ∧
      balance_of (unstake (stake (initState : State (Fin 1)) 0 5).2 0 5).2 0 =
        balance_of (initState : State (Fin 1)) 0 ∧
      total_supply (unstake (stake (initState : State (Fin 1)) 0 5).2 0 5).2 =
        total_supply (initState : State (Fin 1)) ∧
      custody_balance (unstake (stake (initState : State (Fin 1)) 0 5).2 0 5).2 =
        custody_balance (initState : State (Fin 1))) := by
  refine ⟨by rfl, C6_round_trip (initState : State (Fin 1)) 0 5 (by rfl)⟩

/-! ### Allowance consumption and approve semantics -/

/-- C7 — allowance consumption and frame: after every successful
`transfer_from(caller = spender, owner, recipient, amount)`, the `(owner, spender)`
allowance equals its prior value minus `amount` (the prior value being at least
`amount`), and every allowance entry with a different key is unchanged. -/
theorem C7_allowance_consumption (s : State Addr) (caller owner recipient : Addr)
    (amount : Nat) (h : (transfer_from s caller owner recipient amount).1 = .ok ()) :
    allowance (transfer_from s caller owner recipient amount).2 owner caller =
      allowance s owner caller - amount ∧
    amount ≤ allowance s owner caller ∧
    ∀ k : Addr × Addr, k ≠ (owner, caller) →
      (transfer_from s caller owner recipient amount).2.allowances k = s.allowances k := by
  rcases transfer_from_spec s caller owner recipient amount with
    ⟨h1, hne, hle, hal, hfr, hbal, hov, h2⟩ | ⟨⟨e, h1⟩, h2⟩
  · rw [h2]
    refine ⟨?_, hal, ?_⟩
    · simp only [allowance, setAllowances_allowances, Function.update_same]
    · intro k hk
      simp only [setAllowances_allowances, setBalances_allowances]
      rw [Function.update_noteq hk]
  · rw [h1] at h; cases h

/-- Witness for C7: after stake 50 by address 0 and approve 30 for spender 1, a
`transfer_from` of 20 by spender 1 from owner 0 to recipient 2 succeeds, leaves
allowance (0,1) at 10 and every other allowance entry unchanged. -/
theorem C7_allowance_consumption_witness :
    ((transfer_from (execSeq (initState : State (Fin 3))
        [Call.stake 0 50, Call.approve 0 1 30]) 1 0 2 20).1 = .ok ()) ∧
    (allowance (transfer_from (execSeq (initState : State (Fin 3))
        [Call.stake 0 50, Call.approve 0 1 30]) 1 0 2 20).2 0 1 =
      allowance (execSeq (initState : State (Fin 3))
        [Call.stake 0 50, Call.approve 0 1 30]) 0 1 - 20 ∧
      20 ≤ allowance (execSeq (initState : State (Fin 3))
        [Call.stake 0 50, Call.approve 0 1 30]) 0 1 ∧
      ∀ k : Fin 3 × Fin 3, k ≠ (0, 1) →
        (transfer_from (execSeq (initState : State (Fin 3))
          [Call.stake 0 50, Call.approve 0 1 30]) 1 0 2 20).2.allowances k =
        (execSeq (initState : State (Fin 3))
          [Call.stake 0 50, Call.approve 0 1 30]).allowances k) := by
  refine ⟨by rfl, C7_allowance_consumption _ 1 0 2 20 (by rfl)⟩

/-- C8 — approve semantics: `approve(caller, spender, amount)` fails with
`SelfTransfer` exactly when `caller = spender` (for every amount, including zero),
leaving the state unchanged; otherwise it succeeds and sets the `(caller, spender)`
allowance to exactly `amount`, overwriting any previous value, with no other state
change (other allowance entries, balances, aggregates and metadata untouched). -/
theorem C8_approve_semantics (s : State Addr) (caller spender : Addr) (amount : Nat) :
    ((approve s caller spender amount).1 = .error .SelfTransfer ↔ caller = spender) ∧
    (caller = spender → (approve s caller spender amount).2 = s) ∧
    (caller ≠ spender →
      (approve s caller spender amount).1 = .ok () ∧
      allowance (approve s caller spender amount).2 caller spender = amount ∧
      (∀ k : Addr × Addr, k ≠ (caller, spender) →
        (approve s caller spender amount).2.allowances k = s.allowances k) ∧
      (approve s caller spender amount).2.balances = s.balances ∧
      (approve s caller spender amount).2.total_staked = s.total_staked ∧
      (approve s caller spender amount).2.contract_cspr_balance =
        s.contract_cspr_balance ∧
      (approve s caller spender amount).2.name = s.name ∧
      (approve s caller spender amount).2.symbol = s.symbol ∧
      (approve s caller spender amount).2.decimals = s.decimals) := by
  rcases approve_spec s caller spender amount with ⟨heq, h2⟩ | ⟨hne, h2⟩ <;> rw [h2]
  · exact ⟨by simp [heq], fun _ => rfl, fun hc => absurd heq hc⟩
  · refine ⟨by simp [hne], fun hc => absurd hc hne,
      fun _ => ⟨rfl, ?_, ?_, rfl, rfl, rfl, rfl, rfl, rfl⟩⟩
    · simp only [allowance, setAllowances_allowances, Function.update_same]
    · intro k hk
      simp only [setAllowances_allowances]
      rw [Function.update_noteq hk]

/-- Witness for C8: a zero-amount approval from 0 to 1 on the initialized state
succeeds and sets allowance (0,1) to 0, while any self-approval (here with amount 7)
fails with `SelfTransfer`. -/
theorem C8_approve_semantics_witness :
    ((approve (initState : State (Fin 2)) 0 1 0).1 = .ok () ∧
      allowance (approve (initState : State (Fin 2)) 0 1 0).2 0 1 = 0) ∧
    (approve (initState : State (Fin 2)) 0 0 7).1 = .error .SelfTransfer := by
  have h1 := C8_approve_semantics (initState : State (Fin 2)) 0 1 0
  have h2 := C8_approve_semantics (initState : State (Fin 2)) 0 0 7
  exact ⟨⟨(h1.2.2 (by decide)).1, (h1.2.2 (by decide)).2.1⟩, h2.1.mpr rfl⟩

/-! ### Transfer error precedence -/

/-- A concrete state in which the recipient's balance already sits at the `U256`
maximum while the caller holds one unit. -/
def maxedState : State (Fin 2) :=
  { initState with balances := fun a => if a = 0 then 1 else U256max }

/-- C9 counterexample: in `maxedState`, the call `transfer 0 1 1` satisfies every
premise of the claim's success arm (non-zero amount within the ceiling, distinct
recipient, sufficient balance) yet fails with `ArithmeticOverflow`, because the
recipient-side `safe_add` overflows — an error arm the claim omits. -/
theorem C9_transfer_precedence_counterexample :
    (1 : Nat) ≠ 0 ∧ (1 : Nat) ≤ u128MAX ∧ (1 : Fin 2) ≠ (0 : Fin 2) ∧
    1 ≤ balance_of maxedState 0 ∧
    (transfer maxedState 0 1 1).1 = .error .ArithmeticOverflow := by
  refine ⟨by decide, by decide, by decide, by decide, by rfl⟩

/-- C9 (amended) — transfer error precedence: `transfer(caller, recipient, amount)`
fails with `InvalidAmount` if `amount = 0`; otherwise with `ExceedsMaximum` if the
amount exceeds the `u128::MAX` ceiling; otherwise with `SelfTransfer` if
`recipient = caller`; otherwise with `InsufficientBalance` if the caller's balance is
below `amount`; otherwise with `ArithmeticOverflow` if the recipient's balance plus
`amount` leaves `U256`; otherwise it succeeds, decreasing the caller's balance and
increasing the recipient's balance by exactly `amount`.  Each failure leaves the state
unchanged. -/
theorem C9_transfer_precedence (s : State Addr) (caller recipient : Addr)
    (amount : Nat) :
    (amount = 0 → transfer s caller recipient amount = (.error .InvalidAmount, s)) ∧
    (amount ≠ 0 → u128MAX < amount →
      transfer s caller recipient amount = (.error .ExceedsMaximum, s)) ∧
    (amount ≠ 0 → amount ≤ u128MAX → recipient = caller →
      transfer s caller recipient amount = (.error .SelfTransfer, s)) ∧
    (amount ≠ 0 → amount ≤ u128MAX → recipient ≠ caller →
      balance_of s caller < amount →
      transfer s caller recipient amount = (.error .InsufficientBalance, s)) ∧
    (amount ≠ 0 → amount ≤ u128MAX → recipient ≠ caller →
      amount ≤ balance_of s caller → U256max < balance_of s recipient + amount →
      transfer s caller recipient amount = (.error .ArithmeticOverflow, s)) ∧
    (amount ≠ 0 → amount ≤ u128MAX → recipient ≠ caller →
      amount ≤ balance_of s caller → balance_of s recipient + amount ≤ U256max →
      (transfer s caller recipient amount).1 = .ok () ∧
      balance_of (transfer s caller recipient amount).2 caller + amount =
        balance_of s caller ∧
      balance_of (transfer s caller recipient amount).2 recipient =
        balance_of s recipient + amount) := by
  refine ⟨?_, ?_, ?_, ?_, ?_, ?_⟩
  · intro h0
    rw [transfer_eq]
    unfold _transfer
    rw [validate_amount_error_iff.mpr (Or.inl ⟨h0, rfl⟩)]
  · intro h0 hgt
    rw [transfer_eq]
    unfold _transfer
    rw [validate_amount_error_iff.mpr (Or.inr ⟨h0, hgt, rfl⟩)]
  · intro h0 hle hrc
    rw [transfer_eq]
    unfold _transfer validate_address
    rw [validate_amount_eq_ok h0 hle]
    dsimp only
    rw [if_pos hrc.symm]
  · intro h0 hle hrc hlt
    simp only [balance_of] at hlt
    rw [transfer_eq]
    unfold _transfer validate_address
    rw [validate_amount_eq_ok h0 hle]
    dsimp only
    rw [if_neg (fun hh => hrc hh.symm),
      validate_sufficient_balance_error_iff.mpr ⟨hlt, rfl⟩]
  · intro h0 hle hrc hge hov
    simp only [balance_of] at hge hov
    rw [transfer_eq]
    unfold _transfer validate_address
    rw [validate_amount_eq_ok h0 hle]
    dsimp only
    rw [if_neg (fun hh => hrc hh.symm),
      validate_sufficient_balance_eq_ok hge,
      safe_sub_ok_iff.mpr ⟨hge, rfl⟩]
    dsimp only
    rw [safe_add_error_iff.mpr ⟨hov, rfl⟩]
  · intro h0 hle hrc hge hov
    simp only [balance_of] at hge hov
    rw [transfer_eq]
    unfold _transfer validate_address
    rw [validate_amount_eq_ok h0 hle]
    dsimp only
    rw [if_neg (fun hh => hrc hh.symm),
      validate_sufficient_balance_eq_ok hge,
      safe_sub_ok_iff.mpr ⟨hge, rfl⟩]
    dsimp only
    rw [safe_add_ok_iff.mpr ⟨hov, rfl⟩]
    refine ⟨rfl, ?_, ?_⟩
    · simp only [balance_of, setBalances_balances]
      rw [Function.update_noteq (fun hh => hrc hh.symm), Function.update_same]
      have hb : amount ≤ s.balances caller := hge
      omega
    · simp only [balance_of, setBalances_balances, Function.update_same]

/-- Witness for the amended C9: concrete instances of the `InvalidAmount` arm and of
the success arm on the initialized two-address state after a stake of 10. -/
theorem C9_transfer_precedence_witness :
    (transfer (initState : State (Fin 2)) 0 1 0 = (.error .InvalidAmount, initState) ∧
      ((3 : Nat) ≠ 0 ∧ (3 : Nat) ≤ u128MAX ∧ (1 : Fin 2) ≠ 0 ∧
        3 ≤ balance_of (stake (initState : State (Fin 2)) 0 10).2 0 ∧
        balance_of (stake (initState : State (Fin 2)) 0 10).2 1 + 3 ≤ U256max)) ∧
    ((transfer (stake (initState : State (Fin 2)) 0 10).2 0 1 3).1 = .ok () ∧
      balance_of (transfer (stake (initState : State (Fin 2)) 0 10).2 0 1 3).2 0 + 3 =
        balance_of (stake (initState : State (Fin 2)) 0 10).2 0 ∧
      balance_of (transfer (stake (initState : State (Fin 2)) 0 10).2 0 1 3).2 1 =
        balance_of (stake (initState : State (Fin 2)) 0 10).2 1 + 3) := by
  refine ⟨⟨(C9_transfer_precedence (initState : State (Fin 2)) 0 1 0).1 rfl,
    by decide, by decide, by decide, by decide, by decide⟩,
    (C9_transfer_precedence (stake (initState : State (Fin 2)) 0 10).2 0 1 3).2.2.2.2.2
      (by decide) (by decide) (by decide) (by decide) (by decide)⟩

/-! ### No self-allowance -/

/-- One step preserves the all-diagonal-allowances-zero invariant. -/
theorem exec_preserves_diag_allowance (s : State Addr) (c : Call Addr)
    (h : ∀ a : Addr, s.allowances (a, a) = 0) :
    ∀ a : Addr, (exec s c).2.allowances (a, a) = 0 := by
  cases c with
  | transfer caller recipient amount =>
    rw [exec_transfer, transfer_eq]
    rcases _transfer_spec s caller recipient amount with
      ⟨_, _, _, _, _, _, h2⟩ | ⟨_, h2⟩ <;> rw [h2] <;> exact h
  | approve caller spender amount =>
    rw [exec_approve]
    rcases approve_spec s caller spender amount with ⟨_, h2⟩ | ⟨hne, h2⟩ <;> rw [h2]
    · exact h
    · intro a
      simp only [setAllowances_allowances]
      rw [Function.update_noteq]
      · exact h a
      · intro hk
        obtain ⟨h1, h2⟩ := (Prod.mk.injEq _ _ _ _).mp hk
        exact hne (h1.symm.trans h2)
  | transferFrom caller owner recipient amount =>
    rw [exec_transferFrom]
    rcases transfer_from_spec s caller owner recipient amount with
      ⟨_, _, _, _, _, _, _, h2⟩ | ⟨_, h2⟩ <;> rw [h2]
    · intro a
      simp only [setAllowances_allowances, setBalances_allowances]
      by_cases hk : ((a, a) : Addr × Addr) = (owner, caller)
      · rw [hk, Function.update_same]
        obtain ⟨h1, h2⟩ := (Prod.mk.injEq _ _ _ _).mp hk
        rw [← h1, ← h2, h a]
        exact Nat.zero_sub _
      · rw [Function.update_noteq hk]
        exact h a
    · exact h
  | stake caller amount =>
    rw [exec_stake]
    rcases stake_spec s caller amount with ⟨_, _, _, _, _, _, h2⟩ | ⟨_, h2⟩ <;> rw [h2]
    · intro a; simp only [stakeWrites_allowances]; exact h a
    · exact h
  | unstake caller amount =>
    rw [exec_unstake]
    rcases unstake_spec s caller amount with ⟨_, _, _, _, _, _, h2⟩ | ⟨_, h2⟩ <;> rw [h2]
    · intro a; simp only [stakeWrites_allowances]; exact h a
    · exact h

/-- `transfer_from` with `caller = owner` and a zero self-allowance fails with
`InsufficientAllowance` before any write. -/
theorem transfer_from_self_no_allowance (s : State Addr) (caller recipient : Addr)
    (amount : Nat) (hz : s.allowances (caller, caller) = 0) (h0 : amount ≠ 0)
    (hle : amount ≤ u128MAX) :
    transfer_from s caller caller recipient amount =
      (.error .InsufficientAllowance, s) := by
  unfold transfer_from validate_address
  rw [validate_amount_eq_ok h0 hle]
  dsimp only
  rw [validate_sufficient_allowance_error_iff.mpr ⟨by omega, rfl⟩]

/-- C10 — implicit: in every state reachable from the initialized state,
`allowance(a, a) = 0` for every address `a`; consequently `transfer_from` called with
`caller = owner` fails with `InsufficientAllowance` for every non-zero amount within
the ceiling, leaving the state unchanged. -/
theorem C10_no_self_allowance (cs : List (Call Addr)) (caller recipient : Addr)
    (amount : Nat) (h0 : amount ≠ 0) (hle : amount ≤ u128MAX) :
    (∀ a : Addr, allowance (execSeq (initState : State Addr) cs) a a = 0) ∧
    transfer_from (execSeq (initState : State Addr) cs) caller caller recipient
        amount =
      (.error .InsufficientAllowance, execSeq (initState : State Addr) cs) := by
  have hdiag : ∀ a : Addr, (execSeq (initState : State Addr) cs).allowances (a, a) = 0 := by
    have hgen : ∀ s : State Addr, (∀ a : Addr, s.allowances (a, a) = 0) →
        ∀ a : Addr, (execSeq s cs).allowances (a, a) = 0 := by
      induction cs with
      | nil => intro s h; exact h
      | cons c cs ih =>
        intro s h
        rw [execSeq_cons]
        exact ih _ (exec_preserves_diag_allowance s c h)
    exact hgen _ (fun a => rfl)
  exact ⟨hdiag, transfer_from_self_no_allowance _ caller recipient amount
    (hdiag caller) h0 hle⟩

/-- Witness for C10: from the initialized state (empty call sequence), a delegated
self-transfer of 3 by address 0 fails with `InsufficientAllowance`. -/
theorem C10_no_self_allowance_witness :
    ((3 : Nat) ≠ 0 ∧ (3 : Nat) ≤ u128MAX) ∧
    ((∀ a : Fin 2, allowance (execSeq (initState : State (Fin 2)) []) a a = 0) ∧
      transfer_from (execSeq (initState : State (Fin 2)) []) 0 0 1 3 =
        (.error .InsufficientAllowance, execSeq (initState : State (Fin 2)) [])) := by
  exact ⟨⟨by decide, by decide⟩, C10_no_self_allowance [] 0 1 3 (by decide) (by decide)⟩

end CasperLiquid
